import Mathlib

/-
Verification of the bitcoind-startos manager (src/manager/src/main.rs):
a shallow embedding of the supervisor, config materializer and telemetry
sidecar, with theorems about the claims of the specification.
Machine integers (usize, u64, i32) are modelled as Nat or Int; f64 values
are modelled as rationals.
-/

namespace BitcoindManager

/-- Model of serde_yaml::Value restricted to the shapes the manager reads.
A mapping is a list of key-value pairs looked up front to back. -/
inductive YValue where
  | null
  | boolV (b : Bool)
  | strV (s : String)
  | mapV (m : List (String × YValue))

/-- Lookup in a serde_yaml Mapping (Mapping::get): first matching key. -/
def mGet : List (String × YValue) → String → Option YValue
  | [], _ => none
  | (k, v) :: rest, key => if k = key then some v else mGet rest key

/-- serde_yaml Value::get on a value: a mapping yields the entry, anything
else yields None. -/
def vGet (v : YValue) (k : String) : Option YValue :=
  match v with
  | .mapV m => mGet m k
  | _ => none

/-- serde_yaml Value::as_str. -/
def asStr : YValue → Option String
  | .strV s => some s
  | _ => none

/-- serde_yaml Value::as_bool. -/
def asBool : YValue → Option Bool
  | .boolV b => some b
  | _ => none

/-- serde_yaml Value::as_mapping. -/
def asMapping : YValue → Option (List (String × YValue))
  | .mapV m => some m
  | _ => none

/-- serde_yaml Value square-bracket indexing (src/value/index.rs semantics):
indexing a mapping by a missing key, or indexing a non-mapping, yields Null
and never panics. -/
def YValue.index (v : YValue) (k : String) : YValue :=
  (vGet v k).getD .null

/-- serde_yaml Value == "literal" (PartialEq with str): true only for a
string value with the same content. -/
def beqStrLit (v : YValue) (s : String) : Bool :=
  match v with
  | .strV t => t = s
  | _ => false

/-- Outcome of a computation that may panic (Rust panic unwinds the thread). -/
inductive PanicOr (α : Type) where
  | panic (msg : String)
  | ok (a : α)

/-- True when the computation did not panic. -/
def PanicOr.isOk {α : Type} : PanicOr α → Bool
  | .ok _ => true
  | .panic _ => false

/-- Two-digit zero padding, as produced by chrono %m %d %H %M %S. -/
def pad2 (n : Nat) : String :=
  if n < 10 then "0" ++ toString n else toString n

/-- Embedding of Rust f64 formatting with precision 2: round the exact value
to the nearest hundredth, ties to even, and print with two decimals.
Used only on nonnegative values in this program. -/
def fmtFixed2 (q : ℚ) : String :=
  let q100 := q * 100
  let n : Nat := q100.num.toNat
  let d : Nat := q100.den
  let ip := n / d
  let rem := n % d
  let np : Nat :=
    if d < 2 * rem then ip + 1
    else if 2 * rem < d then ip
    else if ip % 2 = 0 then ip else ip + 1
  toString (np / 100) ++ "." ++ pad2 (np % 100)

/-- Days since 1970-01-01 to a (year, month, day) civil date, the standard
era-based algorithm used by chrono for nonnegative Unix times. -/
def civilFromDays (z : Nat) : Nat × Nat × Nat :=
  let z2 := z + 719468
  let era := z2 / 146097
  let doe := z2 % 146097
  let yoe := (doe - doe / 1460 + doe / 36524 - doe / 146096) / 365
  let y := yoe + era * 400
  let doy := doe - (365 * yoe + yoe / 4 - yoe / 100)
  let mp := (5 * doy + 2) / 153
  let d := doy - (153 * mp + 2) / 5 + 1
  let m := if mp < 10 then mp + 3 else mp - 9
  (if m ≤ 2 then y + 1 else y, m, d)

/-- human_readable_timestamp from main.rs: a Unix time rendered as
MM/DD/YYYY @ HH:MM:SS in UTC. -/
def human_readable_timestamp (unix_time : Nat) : String :=
  let days := unix_time / 86400
  let secs := unix_time % 86400
  let ymd := civilFromDays days
  pad2 ymd.2.1 ++ "/" ++ pad2 ymd.2.2 ++ "/" ++ toString ymd.1 ++ " @ " ++
    pad2 (secs / 3600) ++ ":" ++ pad2 (secs % 3600 / 60) ++ ":" ++ pad2 (secs % 60)

/-- Capitalize a word: first character uppercased, the rest lowercased
(heck word treatment for the ASCII identifiers used as soft-fork names). -/
def capitalizeWord (w : String) : String :=
  match w.data with
  | [] => ""
  | c :: cs => String.mk (c.toUpper :: cs.map Char.toLower)

/-- heck to_title_case for underscore-separated ASCII names: split into
words, capitalize each, join with spaces. -/
def to_title_case (s : String) : String :=
  String.intercalate " "
    (((s.splitOn "_").filter (fun w => ¬ w.isEmpty)).map capitalizeWord)

/-- One published statistic (struct Stat in main.rs). -/
structure Stat where
  value_type : String
  value : String
  description : Option String
  copyable : Bool
  qr : Bool
  masked : Bool
deriving DecidableEq

/-- The published Status Document (struct Stats in main.rs): a version tag
and an insertion-ordered map from display label to Stat. -/
structure Stats where
  version : Nat
  data : List (String × Stat)
deriving DecidableEq

/-- linear_map LinearMap::insert: replace in place if the key is present,
otherwise append at the end. -/
def lmInsert (k : String) (v : Stat) : List (String × Stat) → List (String × Stat)
  | [] => [(k, v)]
  | (k0, v0) :: rest => if k0 = k then (k, v) :: rest else (k0, v0) :: lmInsert k v rest

/-- Lookup in the insertion-ordered stats map. -/
def lmGet (k : String) : List (String × Stat) → Option Stat
  | [] => none
  | (k0, v) :: rest => if k0 = k then some v else lmGet k rest

/-- Bip9 deployment statistics (struct Bip9Stats). -/
structure Bip9Stats where
  period : Nat
  threshold : Nat
  elapsed : Nat
  count : Nat
  possible : Bool
deriving DecidableEq

/-- Bip9 deployment state machine (enum Bip9), tagged by "status". -/
inductive Bip9 where
  | defined (start_time timeout since : Nat)
  | started (bit : Nat) (start_time timeout since : Nat) (statistics : Bip9Stats)
  | locked_in (start_time timeout since : Nat)
  | active (start_time timeout since : Nat)
  | failed (start_time timeout since : Nat)
deriving DecidableEq

/-- Soft fork entry (enum SoftFork), tagged by "type". -/
inductive SoftFork where
  | buried (active : Bool) (height : Nat)
  | bip9 (active : Bool) (b : Bip9)
deriving DecidableEq

/-- Decoded getblockchaininfo response (struct ChainInfo). -/
structure ChainInfo where
  blocks : Nat
  headers : Nat
  verificationprogress : ℚ
  size_on_disk : Nat
  pruneheight : Nat
  softforks : List (String × SoftFork)
deriving DecidableEq

/-- Decoded getnetworkinfo response (struct NetworkInfo). -/
structure NetworkInfo where
  connections : Nat
  connections_in : Nat
  connections_out : Nat
deriving DecidableEq

/-- The Sync Progress value from the sidecar: "100%" once the validated
block count reaches the header count, otherwise the verification progress
fraction times 100 formatted with two decimals and a percent sign. -/
def syncProgressValue (blocks headers : Nat) (vp : ℚ) : String :=
  if blocks < headers then fmtFixed2 (100 * vp) ++ "%" else "100%"

/-- The entries emitted by one iteration of the soft-fork loop in sidecar,
in emission order. Buried entries and long-active Bip9 entries produce
nothing (the continue branches). -/
def renderSoftFork (blocks : Nat) (sf_name : String) (sf_data : SoftFork) :
    List (String × Stat) :=
  let sf_name_pretty := to_title_case sf_name
  let status_desc := some ("The Bip9 deployment status for " ++ sf_name_pretty)
  let start_desc :=
    some ("The start time (UTC) of the Bip9 signaling period for " ++ sf_name_pretty)
  let timeout_desc :=
    some ("The timeout time (UTC) of the Bip9 signaling period for " ++ sf_name_pretty)
  match sf_data with
  | .buried _ _ => []
  | .bip9 _ b =>
    let rendered : Option (String × String × String) :=
      match b with
      | .defined start_time timeout _ =>
        some ("Defined", human_readable_timestamp start_time, human_readable_timestamp timeout)
      | .started _ start_time timeout _ _ =>
        some ("Started", human_readable_timestamp start_time, human_readable_timestamp timeout)
      | .locked_in start_time timeout _ =>
        some ("Locked In", human_readable_timestamp start_time, human_readable_timestamp timeout)
      | .active start_time timeout since =>
        if blocks ≥ since + 12096 then none
        else some ("Active", human_readable_timestamp start_time, human_readable_timestamp timeout)
      | .failed start_time timeout _ =>
        some ("Active", human_readable_timestamp start_time, human_readable_timestamp timeout)
    match rendered with
    | none => []
    | some (status, start, endv) =>
      [(sf_name_pretty ++ " Status", ⟨"string", status, status_desc, false, false, false⟩),
       (sf_name_pretty ++ " Start Time", ⟨"string", start, start_desc, false, false, false⟩),
       (sf_name_pretty ++ " Timeout", ⟨"string", endv, timeout_desc, false, false, false⟩)] ++
      (match b with
       | .started _ _ _ _ statistics =>
         [(sf_name_pretty ++ " Signal Percentage",
           ⟨"string",
            fmtFixed2 (100 * (statistics.count : ℚ) / (statistics.elapsed : ℚ)) ++ "%",
            some ("Percentage of the blocks in the current signaling window that are signaling for the activation of " ++ sf_name_pretty),
            false, false, false⟩)]
       | _ => [])

/-- The stats inserted on a successful getblockchaininfo query, applied to
the accumulated map in source order. -/
def chainStats (info : ChainInfo) (stats : List (String × Stat)) : List (String × Stat) :=
  let stats := lmInsert "Block Height"
    ⟨"string", toString info.headers,
     some "The current block height for the network", false, false, false⟩ stats
  let stats := lmInsert "Synced Block Height"
    ⟨"string", toString info.blocks,
     some "The number of blocks the node has verified", false, false, false⟩ stats
  let stats := lmInsert "Sync Progress"
    ⟨"string", syncProgressValue info.blocks info.headers info.verificationprogress,
     some "The percentage of the blockchain that has been verified", false, false, false⟩ stats
  let stats := info.softforks.foldl
    (fun acc nmsf =>
      (renderSoftFork info.blocks nmsf.1 nmsf.2).foldl (fun a kv => lmInsert kv.1 kv.2 a) acc)
    stats
  let stats := lmInsert "Disk Usage"
    ⟨"string", fmtFixed2 ((info.size_on_disk : ℚ) / 1073741824) ++ " GiB",
     some "The blockchain size on disk", false, false, false⟩ stats
  if info.pruneheight > 0 then
    lmInsert "Prune Height"
      ⟨"string", toString info.pruneheight,
       some "The number of blocks that have been deleted from disk", false, false, false⟩ stats
  else stats

/-- The stats inserted on a successful getnetworkinfo query. -/
def netStats (info : NetworkInfo) (stats : List (String × Stat)) : List (String × Stat) :=
  lmInsert "Connections"
    ⟨"string",
     toString info.connections ++ " (" ++ toString info.connections_in ++ " in / " ++
       toString info.connections_out ++ " out)",
     some "The number of peers connected (inbound and outbound)", false, false, false⟩ stats

/-- rpc.username and rpc.password read from the settings document
(config.get rpc, get username / password, as_str). -/
def rpcCreds (config : List (String × YValue)) : Option (String × String) :=
  match (mGet config "rpc").bind (fun v => vGet v "username") |>.bind asStr,
        (mGet config "rpc").bind (fun v => vGet v "password") |>.bind asStr with
  | some u, some p => some (u, p)
  | _, _ => none

/-- Rust str::strip_suffix: the string without the suffix when it ends with
it, None otherwise. -/
def stripSuffix (s sfx : String) : Option String :=
  if s.endsWith sfx then some (s.dropRight sfx.length) else none

/-- The credential entries inserted at the start of a sidecar cycle.
Panics (Option::unwrap on None) when credentials are present and the RPC
address does not end in "onion". -/
def credStats (config : List (String × YValue)) (addr : String) :
    PanicOr (List (String × Stat)) :=
  match rpcCreds config with
  | none => .ok []
  | some (user, pass) =>
    let stats := lmInsert "Tor Quick Connect"
      ⟨"string", "btcstandup://" ++ user ++ ":" ++ pass ++ "@" ++ addr ++ ":48332",
       some "Bitcoin-Standup Tor Quick Connect URL", true, true, true⟩ []
    match stripSuffix addr "onion" with
    | none => .panic "called Option::unwrap on a None value"
    | some base =>
      let addr_local := base ++ "local"
      let stats := lmInsert "LAN Quick Connect"
        ⟨"string", "btcstandup://" ++ user ++ ":" ++ pass ++ "@" ++ addr_local ++ ":443",
         some "Bitcoin-Standup LAN Quick Connect URL", true, true, true⟩ stats
      let stats := lmInsert "RPC Username"
        ⟨"string", user, some "Bitcoin RPC Username", true, false, false⟩ stats
      let stats := lmInsert "RPC Password"
        ⟨"string", pass, some "Bitcoin RPC Password", true, false, true⟩ stats
      .ok stats

/-- Exit status of a spawned command. success() holds exactly for exit
code 0; code() is None for a signal-terminated process. -/
inductive ExitSt where
  | exited (code : Int)
  | signaled (sig : Nat)
deriving DecidableEq

/-- The observable result of one bitcoin-cli invocation: its exit status,
the parse of its stdout, and its stderr (None models non-UTF8 bytes). -/
structure CmdOut (α : Type) where
  status : ExitSt
  parsed : Except String α
  stderr : Option String

/-- Command::output() either fails with an io error (propagated by the
question mark) or yields the command's output. -/
inductive Spawned (α : Type) where
  | ioErr (msg : String)
  | out (r : CmdOut α)

/-- std::str::from_utf8(stderr).unwrap_or("UNKNOWN ERROR"). -/
def stderrText (o : Option String) : String := o.getD "UNKNOWN ERROR"

/-- How one sidecar cycle finished. panicked models a Rust panic, which
unwinds the sidecar thread; err models an Err returned to the loop. -/
inductive CycleResult where
  | ok
  | err (msg : String)
  | panicked (msg : String)
deriving DecidableEq

/-- True for a panicking cycle. -/
def isPanicked : CycleResult → Bool
  | .panicked _ => true
  | _ => false

/-- Shared tail of the sidecar after the chain query: run the network query,
then serialize and publish. Returns the cycle result, messages printed to
stderr in order, and the document published this cycle (None when the cycle
returned before the write). -/
def sidecarNet (stats1 : List (String × Stat)) (logs1 : List String)
    (netQ : Spawned NetworkInfo) : CycleResult × List String × Option Stats :=
  match netQ with
  | .ioErr m => (.err m, logs1, none)
  | .out r2 =>
    if r2.status = .exited 0 then
      match r2.parsed with
      | .error e => (.err e, logs1, none)
      | .ok info => (.ok, logs1, some ⟨2, netStats info stats1⟩)
    else if r2.status = .exited 28 then (.ok, logs1, none)
    else (.ok, logs1 ++ ["Error updating network info: " ++ stderrText r2.stderr],
          some ⟨2, stats1⟩)

/-- One sidecar cycle (fn sidecar in main.rs), as a function of the settings
document, the advertised RPC address and the outcomes of the two
bitcoin-cli queries. Returns the cycle result, the stderr messages printed,
and the document published (if the cycle reached the write). -/
def sidecarCore (config : List (String × YValue)) (addr : String)
    (chainQ : Spawned ChainInfo) (netQ : Spawned NetworkInfo) :
    CycleResult × List String × Option Stats :=
  match credStats config addr with
  | .panic m => (.panicked m, [], none)
  | .ok stats0 =>
    match chainQ with
    | .ioErr m => (.err m, [], none)
    | .out r =>
      if r.status = .exited 0 then
        match r.parsed with
        | .error e => (.err e, [], none)
        | .ok info => sidecarNet (chainStats info stats0) [] netQ
      else if r.status = .exited 28 then (.ok, [], none)
      else sidecarNet stats0
        ["Error updating blockchain info: " ++ stderrText r.stderr] netQ

/-- The externally visible effects of a sidecar cycle, in order: stderr
messages, then (only when the cycle published) the write of the serialized
document to /root/.bitcoin/start9/.stats.yaml.tmp followed by the rename
onto /root/.bitcoin/start9/stats.yaml. -/
inductive Effect where
  | log (msg : String)
  | writeTmp (doc : Stats)
  | renameTmpToStats
deriving DecidableEq

/-- True for a pure diagnostic effect. -/
def isLogEffect : Effect → Bool
  | .log _ => true
  | _ => false

/-- The ordered effect list of a sidecar cycle outcome. -/
def sidecarEffects (r : CycleResult × List String × Option Stats) : List Effect :=
  r.2.1.map .log ++
    (match r.2.2 with
     | some d => [.writeTmp d, .renameTmpToStats]
     | none => [])

/-- Content of one of the two status files. A doc written in total chunks
of which only written have been flushed models an in-progress or truncated
serialization; it is complete when written = total. -/
inductive FileC where
  | absent
  | doc (d : Stats) (written total : Nat)
deriving DecidableEq

/-- The two paths the sidecar touches:
tmp is /root/.bitcoin/start9/.stats.yaml.tmp,
stats_yaml is the canonical published path /root/.bitcoin/start9/stats.yaml. -/
structure SidecarFS where
  tmp : FileC
  stats_yaml : FileC
deriving DecidableEq

/-- Coarse effect semantics on the two files: a log changes nothing, the
tmp write replaces tmp with the complete document, the rename atomically
moves tmp over the canonical path. -/
def effectFS (fs : SidecarFS) : Effect → SidecarFS
  | .log _ => fs
  | .writeTmp d => { fs with tmp := .doc d 1 1 }
  | .renameTmpToStats => { tmp := .absent, stats_yaml := fs.tmp }

/-- Apply a cycle's effects to the filesystem. -/
def applyEffects (l : List Effect) (fs : SidecarFS) : SidecarFS := l.foldl effectFS fs

/-- Fine-grained publication steps: File::create truncates tmp and begins a
serialization of d in total chunks, each write flushes one chunk, and
fs::rename atomically moves whatever tmp holds over the canonical path. -/
inductive PubStep where
  | create (d : Stats) (total : Nat)
  | writeChunk
  | rename
deriving DecidableEq

/-- Step semantics of publication on the two files. -/
def stepFS (fs : SidecarFS) : PubStep → SidecarFS
  | .create d total => { fs with tmp := .doc d 0 total }
  | .writeChunk =>
    match fs.tmp with
    | .doc d w t => { fs with tmp := .doc d (min (w + 1) t) t }
    | .absent => fs
  | .rename => { tmp := .absent, stats_yaml := fs.tmp }

/-- The publication trace of main.rs lines 407-417: create and serialize the
whole document to the temporary path, then rename it over the canonical
path. The rename is the last step. -/
def pubTrace (d : Stats) (total : Nat) : List PubStep :=
  .create d total :: (List.replicate total .writeChunk ++ [.rename])

/-- Run a list of publication steps. -/
def runSteps (fs : SidecarFS) (l : List PubStep) : SidecarFS := l.foldl stepFS fs

/-- Existence of the two reindex marker files,
/root/.bitcoin/requires.reindex and /root/.bitcoin/requires.reindex_chainstate,
as observed by main at startup. -/
structure Markers where
  requires_reindex : Bool
  requires_reindex_chainstate : Bool
deriving DecidableEq

/-- Outcome of one fs::remove_file call on a marker. -/
inductive RmOutcome where
  | removed
  | notFound
  | failedRm (msg : String)
deriving DecidableEq

/-- The match on remove_file in inner_main lines 459-463 and 466-470:
Ok and a NotFound error are ignored, any other error propagates. -/
def markerRemove (r : RmOutcome) : Except String Unit :=
  match r with
  | .removed => .ok ()
  | .notFound => .ok ()
  | .failedRm e => .error e

/-- True when the removal does not propagate an error. -/
def rmOk : RmOutcome → Bool
  | .failedRm _ => false
  | _ => true

/-- The three required environment variables. -/
structure Env where
  embassy_ip : String
  peer_tor_address : String
  rpc_tor_address : String

/-- The base bitcoind argument list built in inner_main lines 430-436. -/
def baseArgs (env : Env) : List String :=
  ["-onion=" ++ env.embassy_ip ++ ":9050",
   "-externalip=" ++ env.peer_tor_address,
   "-datadir=/root/.bitcoin",
   "-deprecatedrpc=warnings",
   "-conf=/root/.bitcoin/bitcoin.conf"]

/-- advanced.peers.onlyonion read defensively (lines 437-444):
any missing key or non-boolean defaults to false. -/
def onlyOnionCfg (config : List (String × YValue)) : Bool :=
  ((((((mGet config "advanced").bind asMapping).bind
      (fun m => mGet m "peers")).bind asMapping).bind
      (fun m => mGet m "onlyonion")).bind asBool).getD false

/-- The -proxy argument appended when only onion peers are allowed. -/
def proxyArgs (config : List (String × YValue)) (env : Env) : List String :=
  if onlyOnionCfg config then ["-proxy=" ++ env.embassy_ip ++ ":9050"] else []

/-- Reindex marker handling (inner_main lines 457-471): a full reindex
marker takes priority and appends -reindex, else a chainstate marker
appends -reindex-chainstate; the used marker is deleted, a NotFound
deletion error is swallowed and any other deletion error propagates.
Returns the appended flags and the marker files remaining afterwards. -/
def reindexStep (m : Markers) (fullRm chainRm : RmOutcome) :
    Except String (List String × Markers) :=
  if m.requires_reindex then
    match markerRemove fullRm with
    | .error e => .error e
    | .ok _ => .ok (["-reindex"], ⟨false, m.requires_reindex_chainstate⟩)
  else if m.requires_reindex_chainstate then
    match markerRemove chainRm with
    | .error e => .error e
    | .ok _ => .ok (["-reindex-chainstate"], ⟨m.requires_reindex, false⟩)
  else .ok ([], m)

/-- The full materialized bitcoind argument list and remaining markers:
base arguments, then the optional proxy argument, then the reindex flags
pushed last. -/
def materialize (config : List (String × YValue)) (env : Env) (m : Markers)
    (fullRm chainRm : RmOutcome) : Except String (List String × Markers) :=
  match reindexStep m fullRm chainRm with
  | .error e => .error e
  | .ok (flags, m2) => .ok (baseArgs env ++ proxyArgs config env ++ flags, m2)

/-- The signal names produced by nix Signal::try_from + Display on Linux. -/
def signalTable : List (Int × String) :=
  [(1, "SIGHUP"), (2, "SIGINT"), (3, "SIGQUIT"), (4, "SIGILL"), (5, "SIGTRAP"),
   (6, "SIGABRT"), (7, "SIGBUS"), (8, "SIGFPE"), (9, "SIGKILL"), (10, "SIGUSR1"),
   (11, "SIGSEGV"), (12, "SIGUSR2"), (13, "SIGPIPE"), (14, "SIGALRM"), (15, "SIGTERM"),
   (16, "SIGSTKFLT"), (17, "SIGCHLD"), (18, "SIGCONT"), (19, "SIGSTOP"), (20, "SIGTSTP"),
   (21, "SIGTTIN"), (22, "SIGTTOU"), (23, "SIGURG"), (24, "SIGXCPU"), (25, "SIGXFSZ"),
   (26, "SIGVTALRM"), (27, "SIGPROF"), (28, "SIGWINCH"), (29, "SIGIO"), (30, "SIGPWR"),
   (31, "SIGSYS")]

/-- Signal::try_from(signal).map(to_string).unwrap_or("UNKNOWN SIGNAL"). -/
def signalName (s : Int) : String :=
  (signalTable.lookup s).getD "UNKNOWN SIGNAL"

/-- std ExitStatus as observed through code() and ExitStatusExt::signal(). -/
structure ExitStatusM where
  code : Option Int
  signal : Option Int

/-- The exit-code mapping after child.wait() (inner_main lines 521-534):
the child's own code verbatim; else a diagnostic naming the signal and
128 + signal; else 1. Returns the exit code and the stderr lines printed. -/
def waitExit (st : ExitStatusM) : Int × List String :=
  match st.code with
  | some c => (c, [])
  | none =>
    match st.signal with
    | some s => (128 + s, ["PROCESS TERMINATED BY " ++ signalName s])
    | none => (1, [])

/-- The only continuation after the exit-code mapping: std::process::exit. -/
inductive Terminal where
  | exitProcess (code : Int)
deriving DecidableEq

/-- The supervisor's terminal action after the child exits. -/
def afterWait (st : ExitStatusM) : Terminal := .exitProcess (waitExit st).1

/-- What the ctrlc handler does, as data: either a SIGTERM to a pid or an
immediate process exit. -/
inductive HandlerAct where
  | killChild (pid : Nat) (sig : String)
  | exitNow (code : Int)
deriving DecidableEq

/-- The ctrlc handler of main lines 543-553, as a function of the value
held by the mutex-guarded CHILD_PID cell at the time of the signal. -/
def ctrlcHandler (child_pid : Option Nat) : HandlerAct :=
  match child_pid with
  | some raw_child => .killChild raw_child "SIGTERM"
  | none => .exitNow 143

/-- The write to the CHILD_PID cell at spawn (inner_main line 486); the
handler reads this same cell under the same mutex. -/
def recordChildPid (p : Nat) (_cell : Option Nat) : Option Nat := some p

/-- Whether iteration n of the sidecar loop (inner_main lines 515-520) runs,
given the result of each cycle: an Err is logged and the loop continues,
but a panic unwinds the sidecar thread, so an iteration runs only when no
earlier cycle panicked. -/
def cycleRuns (out : Nat → CycleResult) (n : Nat) : Bool :=
  (List.range n).all fun k => ! isPanicked (out k)

/-- The pruning decision of inner_main lines 487-490:
config[advanced][pruning][mode] == "automatic". The outer index is
serde_yaml Mapping indexing, which panics when "advanced" is absent; the
inner indexes are Value indexing, which yield Null for missing keys. -/
def pruneDecision (config : List (String × YValue)) : PanicOr Bool :=
  match mGet config "advanced" with
  | none => .panic "no entry found for key"
  | some adv => .ok (beqStrLit ((adv.index "pruning").index "mode") "automatic")

/-- The proxy launch decision of inner_main lines 487-514: when pruning
mode is automatic, read advanced.peers.onlyonion with as_bool().unwrap(),
which panics when the value is missing or not a boolean. Returns the
onlyonion flag passed to the proxy when it is started. -/
def proxySetup (config : List (String × YValue)) : PanicOr (Option Bool) :=
  match pruneDecision config with
  | .panic m => .panic m
  | .ok false => .ok none
  | .ok true =>
    match mGet config "advanced" with
    | none => .panic "no entry found for key"
    | some adv =>
      match asBool ((adv.index "peers").index "onlyonion") with
      | none => .panic "called Option::unwrap on a None value"
      | some b => .ok (some b)

/-- True when the query ran and exited with code 28 (daemon warming up). -/
def exits28 {α : Type} : Spawned α → Bool
  | .out r => decide (r.status = .exited 28)
  | .ioErr _ => false

/-- The phases of inner_main in program order. -/
inductive Phase where
  | waitConfig
  | readConfig
  | buildBaseArgs
  | onlyOnionArg
  | writeBackupIgnore
  | reindexMarkers
  | renderConf
  | spawnDaemon
  | recordPid
  | decidePruned
  | maybeProxy
  | spawnSidecar
  | waitChild
  | exitMap
deriving DecidableEq, BEq

/-- The order in which inner_main performs its phases (lines 421-537). -/
def innerMainPhases : List Phase :=
  [.waitConfig, .readConfig, .buildBaseArgs, .onlyOnionArg, .writeBackupIgnore,
   .reindexMarkers, .renderConf, .spawnDaemon, .recordPid, .decidePruned,
   .maybeProxy, .spawnSidecar, .waitChild, .exitMap]

/-- Claim C2: when the supervisor's wait on the daemon child returns, the
process exits with the child's own exit code verbatim when present;
otherwise, for a signal-terminated child, a diagnostic naming the signal is
printed and the code is 128 plus the signal number; otherwise the code
is 1. The exit-code mapping is the final phase of inner_main, so no
supervisor logic runs after it. -/
theorem exit_code_mapping (st : ExitStatusM) :
    (∀ c, st.code = some c → waitExit st = (c, []) ∧ afterWait st = .exitProcess c) ∧
    (∀ s, st.code = none → st.signal = some s →
      waitExit st = (128 + s, ["PROCESS TERMINATED BY " ++ signalName s]) ∧
      afterWait st = .exitProcess (128 + s)) ∧
    (st.code = none → st.signal = none →
      waitExit st = (1, []) ∧ afterWait st = .exitProcess 1) ∧
    innerMainPhases.getLast? = some Phase.exitMap := by
  refine ⟨?_, ?_, ?_, rfl⟩ <;> intros <;> simp [waitExit, afterWait, *]

/-- Witness for C2 at a child terminated by SIGTERM (signal 15). -/
theorem exit_code_mapping_witness :
    waitExit ⟨none, some 15⟩ = (128 + 15, ["PROCESS TERMINATED BY " ++ signalName 15]) ∧
    afterWait ⟨none, some 15⟩ = Terminal.exitProcess (128 + 15) :=
  (exit_code_mapping ⟨none, some 15⟩).2.1 15 rfl rfl

/-- Claim C8: a termination signal arriving while the shared CHILD_PID cell
is empty makes the handler exit the process with the fixed code 143 and
send no signal to any pid; when the cell holds a pid the handler sends
SIGTERM to exactly that pid, and reading the cell right after the spawn
path writes it yields the spawned pid (both paths use the same
mutex-guarded cell). -/
theorem pre_spawn_signal_exit :
    (ctrlcHandler none = .exitNow 143 ∧
      ∀ p sg, ctrlcHandler none ≠ HandlerAct.killChild p sg) ∧
    (∀ p, ctrlcHandler (some p) = .killChild p "SIGTERM") ∧
    (∀ p cell, ctrlcHandler (recordChildPid p cell) = .killChild p "SIGTERM") := by
  refine ⟨⟨rfl, ?_⟩, fun p => rfl, fun p cell => rfl⟩
  intro p sg h
  exact HandlerAct.noConfusion h

/-- Witness for C8: reading the cell right after recording pid 42 makes the
handler signal exactly pid 42. -/
theorem pre_spawn_signal_exit_witness :
    ctrlcHandler (recordChildPid 42 none) = HandlerAct.killChild 42 "SIGTERM" :=
  pre_spawn_signal_exit.2.2 42 none

/-- Claim C5: a Bip9 deployment in the Failed state is rendered with the
status label "Active" (not "Failed"), and its own start time and timeout
are used for the Start Time and Timeout entries. -/
theorem failed_softfork_label (blocks : Nat) (name : String) (a : Bool)
    (start_time timeout_t since : Nat) :
    renderSoftFork blocks name (.bip9 a (.failed start_time timeout_t since)) =
      [(to_title_case name ++ " Status",
        ⟨"string", "Active",
         some ("The Bip9 deployment status for " ++ to_title_case name),
         false, false, false⟩),
       (to_title_case name ++ " Start Time",
        ⟨"string", human_readable_timestamp start_time,
         some ("The start time (UTC) of the Bip9 signaling period for " ++ to_title_case name),
         false, false, false⟩),
       (to_title_case name ++ " Timeout",
        ⟨"string", human_readable_timestamp timeout_t,
         some ("The timeout time (UTC) of the Bip9 signaling period for " ++ to_title_case name),
         false, false, false⟩)] := by
  simp [renderSoftFork]

/-- Claim C4: a Bip9 deployment in the Active state is suppressed entirely
(no entries) once the validated block height reaches since + 12096, and
below that threshold it emits exactly the Status (labelled "Active"),
Start Time and Timeout entries. -/
theorem active_softfork_suppression (blocks : Nat) (name : String) (a : Bool)
    (start_time timeout_t since : Nat) :
    (since + 12096 ≤ blocks →
      renderSoftFork blocks name (.bip9 a (.active start_time timeout_t since)) = []) ∧
    (blocks < since + 12096 →
      renderSoftFork blocks name (.bip9 a (.active start_time timeout_t since)) =
        [(to_title_case name ++ " Status",
          ⟨"string", "Active",
           some ("The Bip9 deployment status for " ++ to_title_case name),
           false, false, false⟩),
         (to_title_case name ++ " Start Time",
          ⟨"string", human_readable_timestamp start_time,
           some ("The start time (UTC) of the Bip9 signaling period for " ++ to_title_case name),
           false, false, false⟩),
         (to_title_case name ++ " Timeout",
          ⟨"string", human_readable_timestamp timeout_t,
           some ("The timeout time (UTC) of the Bip9 signaling period for " ++ to_title_case name),
           false, false, false⟩)]) := by
  constructor <;> intro h
  · simp [renderSoftFork, h]
  · simp [renderSoftFork, Nat.not_le.mpr h]

/-- Witness for C4 at the spec's example: since 100000, active deployment,
suppressed at blocks 112200 and rendered at blocks 112000. -/
theorem active_softfork_suppression_witness :
    renderSoftFork 112200 "taproot" (.bip9 true (.active 100 200 100000)) = [] ∧
    renderSoftFork 112000 "taproot" (.bip9 true (.active 100 200 100000)) =
      [(to_title_case "taproot" ++ " Status",
        ⟨"string", "Active",
         some ("The Bip9 deployment status for " ++ to_title_case "taproot"),
         false, false, false⟩),
       (to_title_case "taproot" ++ " Start Time",
        ⟨"string", human_readable_timestamp 100,
         some ("The start time (UTC) of the Bip9 signaling period for " ++ to_title_case "taproot"),
         false, false, false⟩),
       (to_title_case "taproot" ++ " Timeout",
        ⟨"string", human_readable_timestamp 200,
         some ("The timeout time (UTC) of the Bip9 signaling period for " ++ to_title_case "taproot"),
         false, false, false⟩)] :=
  ⟨(active_softfork_suppression 112200 "taproot" true 100 200 100000).1 (by decide),
   (active_softfork_suppression 112000 "taproot" true 100 200 100000).2 (by decide)⟩

/-- Claim C6: on a successful chain-status query, Sync Progress renders as
the exact string "100%" whenever the validated block count reaches the
header count, and otherwise as 100 times the verification-progress
fraction formatted with two decimal places followed by a percent sign. -/
theorem sync_progress_format (blocks headers : Nat) (vp : ℚ) :
    (headers ≤ blocks → syncProgressValue blocks headers vp = "100%") ∧
    (blocks < headers →
      syncProgressValue blocks headers vp = fmtFixed2 (100 * vp) ++ "%") := by
  constructor <;> intro h
  · simp [syncProgressValue, Nat.not_lt.mpr h]
  · simp [syncProgressValue, h]

/-- Witness for C6 at the spec's examples: fully synced renders "100%",
and blocks 499000 of headers 500000 at verification progress 0.998
renders "99.80%". -/
theorem sync_progress_format_witness :
    syncProgressValue 500000 500000 1 = "100%" ∧
    syncProgressValue 499000 500000 (998 / 1000) = "99.80%" := by
  refine ⟨(sync_progress_format 500000 500000 1).1 (by decide), ?_⟩
  rw [(sync_progress_format 499000 500000 (998 / 1000)).2 (by decide)]
  with_unfolding_all rfl

/-- Counterexample to C10 as stated: a settings document whose advanced
mapping exists but lacks the pruning and mode keys does not panic — the
Value indexes yield Null, Null is not the string "automatic", pruning is
decided false and the onlyonion unwrap is never reached. -/
theorem pruning_lookup_counterexample :
    proxySetup [("advanced", YValue.mapV [])] = PanicOr.ok none ∧
    pruneDecision [("advanced", YValue.mapV [])] = PanicOr.ok false ∧
    vGet (YValue.mapV []) "pruning" = none ∧
    vGet (YValue.mapV []) "peers" = none :=
  ⟨rfl, rfl, rfl, rfl⟩

/-- Claim C10 (amended): after the daemon is spawned, the supervisor
decides pruning with config[advanced][pruning][mode]: the outer Mapping
index panics only when the advanced key itself is absent, while missing
inner keys yield Null so a missing pruning or mode merely makes the mode
comparison false; when the mode equals "automatic", onlyonion is read with
as_bool().unwrap(), which panics when that value is missing or not a
boolean; and the spawn phase precedes the pruning decision. -/
theorem pruning_lookup_amended (config : List (String × YValue)) :
    (mGet config "advanced" = none →
      proxySetup config = .panic "no entry found for key") ∧
    (∀ adv, mGet config "advanced" = some adv →
      beqStrLit ((adv.index "pruning").index "mode") "automatic" = false →
      proxySetup config = .ok none) ∧
    (∀ adv, mGet config "advanced" = some adv →
      beqStrLit ((adv.index "pruning").index "mode") "automatic" = true →
      asBool ((adv.index "peers").index "onlyonion") = none →
      proxySetup config = .panic "called Option::unwrap on a None value") ∧
    (∀ adv b, mGet config "advanced" = some adv →
      beqStrLit ((adv.index "pruning").index "mode") "automatic" = true →
      asBool ((adv.index "peers").index "onlyonion") = some b →
      proxySetup config = .ok (some b)) ∧
    List.indexOf Phase.spawnDaemon innerMainPhases <
      List.indexOf Phase.decidePruned innerMainPhases := by
  refine ⟨?_, ?_, ?_, ?_, by decide⟩ <;> intros <;>
    simp [proxySetup, pruneDecision, *]

/-- Witness for C10 (amended): pruning mode automatic with the peers
mapping absent panics on the onlyonion unwrap. -/
theorem pruning_lookup_amended_witness :
    proxySetup
        [("advanced",
          YValue.mapV [("pruning", YValue.mapV [("mode", YValue.strV "automatic")])])] =
      PanicOr.panic "called Option::unwrap on a None value" :=
  (pruning_lookup_amended
      [("advanced",
        YValue.mapV [("pruning", YValue.mapV [("mode", YValue.strV "automatic")])])]).2.2.1
    (YValue.mapV [("pruning", YValue.mapV [("mode", YValue.strV "automatic")])])
    rfl rfl rfl

/-- A marker removal that does not fail (removed, or not found) yields Ok. -/
theorem markerRemove_ok {r : RmOutcome} (h : rmOk r = true) :
    markerRemove r = .ok () := by
  cases r <;> simp_all [markerRemove, rmOk]

/-- Claim C3: reindex markers are one-shot with full-reindex priority: a
full-reindex marker appends -reindex and clears that marker; otherwise a
chainstate marker appends -reindex-chainstate and clears that marker; the
appended flag list never holds more than one flag; a NotFound deletion
error is ignored while any other deletion failure propagates; and with no
marker present neither flag is appended and the markers are unchanged. -/
theorem reindex_one_shot (config : List (String × YValue)) (env : Env)
    (m : Markers) (fullRm chainRm : RmOutcome) :
    (m.requires_reindex = true → rmOk fullRm = true →
      materialize config env m fullRm chainRm =
        .ok (baseArgs env ++ proxyArgs config env ++ ["-reindex"],
             ⟨false, m.requires_reindex_chainstate⟩) ∧
      "-reindex" ∈ baseArgs env ++ proxyArgs config env ++ ["-reindex"]) ∧
    (m.requires_reindex = false → m.requires_reindex_chainstate = true →
      rmOk chainRm = true →
      materialize config env m fullRm chainRm =
        .ok (baseArgs env ++ proxyArgs config env ++ ["-reindex-chainstate"],
             ⟨false, false⟩) ∧
      "-reindex-chainstate" ∈
        baseArgs env ++ proxyArgs config env ++ ["-reindex-chainstate"]) ∧
    (∀ flags m2, reindexStep m fullRm chainRm = .ok (flags, m2) →
      flags = [] ∨ flags = ["-reindex"] ∨ flags = ["-reindex-chainstate"]) ∧
    (∀ e, m.requires_reindex = true → fullRm = .failedRm e →
      materialize config env m fullRm chainRm = .error e) ∧
    (∀ e, m.requires_reindex = false → m.requires_reindex_chainstate = true →
      chainRm = .failedRm e →
      materialize config env m fullRm chainRm = .error e) ∧
    (m.requires_reindex = true → fullRm = .notFound →
      reindexStep m fullRm chainRm =
        .ok (["-reindex"], ⟨false, m.requires_reindex_chainstate⟩)) ∧
    (m.requires_reindex = false → m.requires_reindex_chainstate = false →
      materialize config env m fullRm chainRm =
        .ok (baseArgs env ++ proxyArgs config env, m)) := by
  obtain ⟨r, rc⟩ := m
  cases fullRm <;> cases chainRm <;> cases r <;> cases rc <;>
    refine ⟨?_, ?_, ?_, ?_, ?_, ?_, ?_⟩ <;> intros <;>
    simp_all [materialize, reindexStep, markerRemove, rmOk]

/-- Witness for C3: a present full-reindex marker with a successful
deletion appends exactly -reindex and clears the marker. -/
theorem reindex_one_shot_witness :
    materialize [] ⟨"ip", "peer", "rpc"⟩ ⟨true, false⟩ .removed .removed =
      .ok (baseArgs ⟨"ip", "peer", "rpc"⟩ ++ proxyArgs [] ⟨"ip", "peer", "rpc"⟩ ++
             ["-reindex"],
           ⟨false, false⟩) ∧
    "-reindex" ∈ baseArgs ⟨"ip", "peer", "rpc"⟩ ++ proxyArgs [] ⟨"ip", "peer", "rpc"⟩ ++
      ["-reindex"] :=
  (reindex_one_shot [] ⟨"ip", "peer", "rpc"⟩ ⟨true, false⟩ .removed .removed).1 rfl rfl

/-- Claim C9: with RPC credentials present, the LAN Quick Connect URL is
derived by strip_suffix("onion") + unwrap on the advertised RPC address:
an address ending in "onion" yields that address with the onion suffix
replaced by "local", while any other address panics the cycle before any
query runs, and a panicking cycle unwinds the sidecar thread so no later
iteration of the loop ever runs (an Err, by contrast, never stops it). -/
theorem lan_quick_connect_strip (config : List (String × YValue))
    (addr user pass : String) (hcred : rpcCreds config = some (user, pass)) :
    (addr.endsWith "onion" = true →
      credStats config addr = .ok
        [("Tor Quick Connect",
          ⟨"string", "btcstandup://" ++ user ++ ":" ++ pass ++ "@" ++ addr ++ ":48332",
           some "Bitcoin-Standup Tor Quick Connect URL", true, true, true⟩),
         ("LAN Quick Connect",
          ⟨"string",
           "btcstandup://" ++ user ++ ":" ++ pass ++ "@" ++
             (addr.dropRight ("onion".length) ++ "local") ++ ":443",
           some "Bitcoin-Standup LAN Quick Connect URL", true, true, true⟩),
         ("RPC Username", ⟨"string", user, some "Bitcoin RPC Username", true, false, false⟩),
         ("RPC Password", ⟨"string", pass, some "Bitcoin RPC Password", true, false, true⟩)]) ∧
    (addr.endsWith "onion" = false →
      credStats config addr = .panic "called Option::unwrap on a None value" ∧
      ∀ (chainQ : Spawned ChainInfo) (netQ : Spawned NetworkInfo),
        sidecarCore config addr chainQ netQ =
          (.panicked "called Option::unwrap on a None value", [], none)) ∧
    (∀ (out : Nat → CycleResult) (k n : Nat),
      isPanicked (out k) = true → k < n → cycleRuns out n = false) ∧
    (∀ (out : Nat → CycleResult), (∀ k, isPanicked (out k) = false) →
      ∀ n, cycleRuns out n = true) := by
  refine ⟨?_, ?_, ?_, ?_⟩
  · intro h
    simp [credStats, hcred, stripSuffix, h, lmInsert]
  · intro h
    have hc : credStats config addr = .panic "called Option::unwrap on a None value" := by
      simp [credStats, hcred, stripSuffix, h]
    exact ⟨hc, fun chainQ netQ => by simp [sidecarCore, hc]⟩
  · intro out k n hp hkn
    simp only [cycleRuns, List.all_eq_false]
    exact ⟨k, List.mem_range.mpr hkn, by simp [hp]⟩
  · intro out h n
    simp only [cycleRuns, List.all_eq_true]
    intro k _
    simp [h k]

/-- Witness for C9: with literal credentials, an address ending in onion
yields the local URL, a bare address panics the cycle, and a loop whose
first cycle panics never runs iteration 0 onward again. -/
theorem lan_quick_connect_strip_witness :
    credStats [("rpc", YValue.mapV [("username", YValue.strV "u"),
                                    ("password", YValue.strV "p")])] "abc.onion" = .ok
      [("Tor Quick Connect",
        ⟨"string", "btcstandup://" ++ "u" ++ ":" ++ "p" ++ "@" ++ "abc.onion" ++ ":48332",
         some "Bitcoin-Standup Tor Quick Connect URL", true, true, true⟩),
       ("LAN Quick Connect",
        ⟨"string",
         "btcstandup://" ++ "u" ++ ":" ++ "p" ++ "@" ++
           ("abc.onion".dropRight ("onion".length) ++ "local") ++ ":443",
         some "Bitcoin-Standup LAN Quick Connect URL", true, true, true⟩),
       ("RPC Username", ⟨"string", "u", some "Bitcoin RPC Username", true, false, false⟩),
       ("RPC Password", ⟨"string", "p", some "Bitcoin RPC Password", true, false, true⟩)] ∧
    credStats [("rpc", YValue.mapV [("username", YValue.strV "u"),
                                    ("password", YValue.strV "p")])] "abc" =
      .panic "called Option::unwrap on a None value" ∧
    cycleRuns (fun _ => .panicked "boom") 1 = false := by
  refine ⟨?_, ?_, ?_⟩
  · exact (lan_quick_connect_strip
      [("rpc", YValue.mapV [("username", YValue.strV "u"), ("password", YValue.strV "p")])]
      "abc.onion" "u" "p" rfl).1 (by with_unfolding_all rfl)
  · exact ((lan_quick_connect_strip
      [("rpc", YValue.mapV [("username", YValue.strV "u"), ("password", YValue.strV "p")])]
      "abc" "u" "p" rfl).2.1 (by with_unfolding_all rfl)).1
  · exact (lan_quick_connect_strip
      [("rpc", YValue.mapV [("username", YValue.strV "u"), ("password", YValue.strV "p")])]
      "abc" "u" "p" rfl).2.2.1 (fun _ => .panicked "boom") 0 1 rfl (by decide)

/-- A list of pure log effects leaves both status files unchanged. -/
theorem applyEffects_logs (l : List Effect) (fs : SidecarFS)
    (h : l.all isLogEffect = true) : applyEffects l fs = fs := by
  induction l generalizing fs with
  | nil => rfl
  | cons e rest ih =>
    cases e with
    | log m =>
      simp only [List.all_cons, Bool.and_eq_true] at h
      exact ih fs h.2
    | writeTmp d => simp [isLogEffect] at h
    | renameTmpToStats => simp [isLogEffect] at h

/-- Claim C7: a sidecar cycle whose chain-status query exits with code 28
returns Ok at once with no effects at all; symmetrically, a cycle whose
network-status query exits with code 28 publishes nothing (neither the
temporary nor the canonical file is touched, so the previous document
survives unchanged) and logs only what the chain branch logged, never
anything for the code-28 exit itself. -/
theorem code28_frame (config : List (String × YValue)) (addr : String)
    (chainQ : Spawned ChainInfo) (netQ : Spawned NetworkInfo) (fs : SidecarFS) :
    (exits28 chainQ = true →
      sidecarEffects (sidecarCore config addr chainQ netQ) = [] ∧
      applyEffects (sidecarEffects (sidecarCore config addr chainQ netQ)) fs = fs ∧
      ((credStats config addr).isOk = true →
        sidecarCore config addr chainQ netQ = (.ok, [], none))) ∧
    (exits28 netQ = true →
      (sidecarCore config addr chainQ netQ).2.2 = none ∧
      (sidecarEffects (sidecarCore config addr chainQ netQ)).all isLogEffect = true ∧
      applyEffects (sidecarEffects (sidecarCore config addr chainQ netQ)) fs = fs ∧
      ((sidecarCore config addr chainQ netQ).2.1 = [] ∨
        ∃ s, (sidecarCore config addr chainQ netQ).2.1 =
          ["Error updating blockchain info: " ++ s])) := by
  constructor
  · intro h28
    obtain ⟨r, hr⟩ : ∃ r, chainQ = .out r := by
      cases chainQ with
      | ioErr m => simp [exits28] at h28
      | out r => exact ⟨r, rfl⟩
    subst hr
    have hst : r.status = .exited 28 := by simpa [exits28] using h28
    cases hcs : credStats config addr with
    | panic m =>
      refine ⟨?_, ?_, ?_⟩ <;>
        simp [sidecarCore, hcs, sidecarEffects, applyEffects, PanicOr.isOk]
    | ok stats0 =>
      have hcore : sidecarCore config addr (.out r) netQ = (.ok, [], none) := by
        simp [sidecarCore, hcs, hst]
      exact ⟨by simp [hcore, sidecarEffects], by simp [hcore, sidecarEffects, applyEffects],
        fun _ => hcore⟩
  · intro h28
    obtain ⟨r2, hr⟩ : ∃ r2, netQ = .out r2 := by
      cases netQ with
      | ioErr m => simp [exits28] at h28
      | out r2 => exact ⟨r2, rfl⟩
    subst hr
    have hst2 : r2.status = .exited 28 := by simpa [exits28] using h28
    have hnet : ∀ stats1 logs1, sidecarNet stats1 logs1 (.out r2) = (.ok, logs1, none) := by
      intro stats1 logs1
      simp [sidecarNet, hst2]
    cases hcs : credStats config addr with
    | panic m =>
      refine ⟨?_, ?_, ?_, ?_⟩ <;>
        simp [sidecarCore, hcs, sidecarEffects, applyEffects]
    | ok stats0 =>
      cases chainQ with
      | ioErr m =>
        refine ⟨?_, ?_, ?_, ?_⟩ <;>
          simp [sidecarCore, hcs, sidecarEffects, applyEffects]
      | out r =>
        by_cases h0 : r.status = .exited 0
        · cases hp : r.parsed with
          | error e =>
            refine ⟨?_, ?_, ?_, ?_⟩ <;>
              simp [sidecarCore, hcs, h0, hp, sidecarEffects, applyEffects]
          | ok info =>
            have hcore : sidecarCore config addr (.out r) (.out r2) =
                (.ok, [], none) := by
              simp [sidecarCore, hcs, h0, hp, hnet]
            refine ⟨?_, ?_, ?_, ?_⟩ <;>
              simp [hcore, sidecarEffects, applyEffects]
        · by_cases h28c : r.status = .exited 28
          · have hcore : sidecarCore config addr (.out r) (.out r2) =
                (.ok, [], none) := by
              simp [sidecarCore, hcs, h0, h28c]
            refine ⟨?_, ?_, ?_, ?_⟩ <;>
              simp [hcore, sidecarEffects, applyEffects]
          · have hcore : sidecarCore config addr (.out r) (.out r2) =
                (.ok, ["Error updating blockchain info: " ++ stderrText r.stderr], none) := by
              simp [sidecarCore, hcs, h0, h28c, hnet]
            refine ⟨?_, ?_, ?_, ?_⟩ <;>
              simp [hcore, sidecarEffects, applyEffects, isLogEffect, effectFS]

/-- Witness for C7: with no credentials and a chain query exiting 28, the
cycle is a no-op on a filesystem holding a previously published document. -/
theorem code28_frame_witness :
    sidecarEffects (sidecarCore [] "a"
        (.out ⟨.exited 28, .error "busy", none⟩) (.ioErr "never")) = [] ∧
    applyEffects (sidecarEffects (sidecarCore [] "a"
        (.out ⟨.exited 28, .error "busy", none⟩) (.ioErr "never")))
      ⟨FileC.absent, FileC.doc ⟨2, []⟩ 1 1⟩ =
      ⟨FileC.absent, FileC.doc ⟨2, []⟩ 1 1⟩ ∧
    ((credStats [] "a").isOk = true →
      sidecarCore [] "a" (.out ⟨.exited 28, .error "busy", none⟩) (.ioErr "never") =
        (.ok, [], none)) :=
  (code28_frame [] "a" (.out ⟨.exited 28, .error "busy", none⟩) (.ioErr "never")
    ⟨FileC.absent, FileC.doc ⟨2, []⟩ 1 1⟩).1 rfl

/-- Any document the network tail publishes carries version tag 2. -/
theorem sidecarNet_version (stats1 : List (String × Stat)) (logs1 : List String)
    (netQ : Spawned NetworkInfo) (d : Stats)
    (h : (sidecarNet stats1 logs1 netQ).2.2 = some d) : d.version = 2 := by
  cases netQ with
  | ioErr m => simp [sidecarNet] at h
  | out r2 =>
    by_cases h0 : r2.status = .exited 0
    · cases hp : r2.parsed with
      | error e => simp [sidecarNet, h0, hp] at h
      | ok info =>
        simp [sidecarNet, h0, hp] at h
        subst h
        rfl
    · by_cases h28 : r2.status = .exited 28
      · simp [sidecarNet, h0, h28] at h
      · simp [sidecarNet, h0, h28] at h
        subst h
        rfl

/-- Any document a sidecar cycle publishes carries version tag 2. -/
theorem published_version (config : List (String × YValue)) (addr : String)
    (chainQ : Spawned ChainInfo) (netQ : Spawned NetworkInfo) (d : Stats)
    (h : (sidecarCore config addr chainQ netQ).2.2 = some d) : d.version = 2 := by
  cases hcs : credStats config addr with
  | panic m => simp [sidecarCore, hcs] at h
  | ok stats0 =>
    cases chainQ with
    | ioErr m => simp [sidecarCore, hcs] at h
    | out r =>
      by_cases h0 : r.status = .exited 0
      · cases hp : r.parsed with
        | error e => simp [sidecarCore, hcs, h0, hp] at h
        | ok info =>
          exact sidecarNet_version _ _ _ d (by simpa [sidecarCore, hcs, h0, hp] using h)
      · by_cases h28 : r.status = .exited 28
        · simp [sidecarCore, hcs, h0, h28] at h
        · exact sidecarNet_version _ _ _ d (by simpa [sidecarCore, hcs, h0, h28] using h)

/-- Running publication steps distributes over list append. -/
theorem runSteps_append (fs : SidecarFS) (l1 l2 : List PubStep) :
    runSteps fs (l1 ++ l2) = runSteps (runSteps fs l1) l2 := by
  simp [runSteps]

/-- A publication step other than the rename never touches the canonical
published path. -/
theorem stepFS_stats_yaml (fs : SidecarFS) (s : PubStep) (h : s ≠ PubStep.rename) :
    (stepFS fs s).stats_yaml = fs.stats_yaml := by
  cases s with
  | create d total => rfl
  | writeChunk => cases htmp : fs.tmp <;> simp [stepFS, htmp]
  | rename => exact absurd rfl h

/-- A run without the rename step leaves the canonical path unchanged. -/
theorem runSteps_no_rename (l : List PubStep) (fs : SidecarFS)
    (h : PubStep.rename ∉ l) : (runSteps fs l).stats_yaml = fs.stats_yaml := by
  induction l generalizing fs with
  | nil => rfl
  | cons s rest ih =>
    have hs : s ≠ PubStep.rename := fun he => h (he ▸ List.mem_cons_self _ _)
    have hr : PubStep.rename ∉ rest := fun hm => h (List.mem_cons_of_mem _ hm)
    calc (runSteps fs (s :: rest)).stats_yaml
        = (runSteps (stepFS fs s) rest).stats_yaml := rfl
      _ = (stepFS fs s).stats_yaml := ih (stepFS fs s) hr
      _ = fs.stats_yaml := stepFS_stats_yaml fs s hs

/-- k chunk writes into a partially serialized tmp file advance it by k
chunks, capped at the total, and never touch the canonical path. -/
theorem write_run (k : Nat) : ∀ (d : Stats) (w total : Nat) (s : FileC), w ≤ total →
    runSteps ⟨.doc d w total, s⟩ (List.replicate k .writeChunk) =
      ⟨.doc d (min (w + k) total) total, s⟩ := by
  induction k with
  | zero =>
    intro d w total s hw
    show SidecarFS.mk (.doc d w total) s = _
    rw [Nat.add_zero, Nat.min_eq_left hw]
  | succ k ih =>
    intro d w total s hw
    rw [List.replicate_succ]
    show runSteps (stepFS ⟨.doc d w total, s⟩ .writeChunk) (List.replicate k .writeChunk) = _
    have hstep : stepFS ⟨.doc d w total, s⟩ .writeChunk =
        ⟨.doc d (min (w + 1) total) total, s⟩ := rfl
    rw [hstep, ih d (min (w + 1) total) total s (Nat.min_le_right _ _)]
    have harith : min (min (w + 1) total + k) total = min (w + (k + 1)) total := by omega
    rw [harith]

/-- The serialization phase (create plus all chunk writes) ends with the
tmp file holding the complete document and the canonical path untouched. -/
theorem pubTrace_write_phase (d : Stats) (total : Nat) (fs0 : SidecarFS) :
    runSteps fs0 (PubStep.create d total :: List.replicate total PubStep.writeChunk) =
      ⟨FileC.doc d total total, fs0.stats_yaml⟩ := by
  show runSteps (stepFS fs0 (.create d total)) (List.replicate total .writeChunk) = _
  have hstep : stepFS fs0 (.create d total) = ⟨.doc d 0 total, fs0.stats_yaml⟩ := rfl
  rw [hstep, write_run total d 0 total fs0.stats_yaml (Nat.zero_le _)]
  have : min (0 + total) total = total := by omega
  rw [this]

/-- The full publication trace ends with the canonical path holding the
complete document and the tmp path removed. -/
theorem pubTrace_run (d : Stats) (total : Nat) (fs0 : SidecarFS) :
    runSteps fs0 (pubTrace d total) = ⟨FileC.absent, FileC.doc d total total⟩ := by
  have h2 : pubTrace d total =
      (PubStep.create d total :: List.replicate total PubStep.writeChunk) ++
        [PubStep.rename] := by
    simp [pubTrace]
  rw [h2, runSteps_append, pubTrace_write_phase]
  rfl

/-- At every intermediate point of the publication trace the canonical
path holds either the previous content or the complete new document. -/
theorem pubTrace_prefix_stats (d : Stats) (total : Nat) (fs0 : SidecarFS)
    (l : List PubStep) (hl : l <+: pubTrace d total) :
    (runSteps fs0 l).stats_yaml = fs0.stats_yaml ∨
    (runSteps fs0 l).stats_yaml = FileC.doc d total total := by
  rcases List.prefix_cons_iff.mp (by simpa [pubTrace] using hl) with rfl | ⟨t, rfl, ht⟩
  · left; rfl
  · rcases List.prefix_concat_iff.mp ht with h | h
    · subst h
      right
      have : PubStep.create d total ::
          (List.replicate total PubStep.writeChunk ++ [PubStep.rename]) = pubTrace d total := by
        simp [pubTrace]
      rw [this, pubTrace_run]
    · left
      apply runSteps_no_rename
      intro hm
      rcases List.mem_cons.mp hm with h1 | h1
      · exact PubStep.noConfusion h1
      · exact PubStep.noConfusion (List.eq_of_mem_replicate (h.subset h1))

/-- Claim C1: a sidecar cycle that publishes writes the full document
(version tag 2 with all accumulated entries) to the tmp path and only then
renames it over the canonical path: its effect list ends with exactly the
tmp write followed by the rename, the tmp file is complete before the
rename runs, and at every point of the publication trace the canonical
path holds either the previous content unchanged or the complete new
document — never a mixture or truncation. -/
theorem atomic_publication (config : List (String × YValue)) (addr : String)
    (chainQ : Spawned ChainInfo) (netQ : Spawned NetworkInfo) (d : Stats)
    (hpub : (sidecarCore config addr chainQ netQ).2.2 = some d) :
    d.version = 2 ∧
    sidecarEffects (sidecarCore config addr chainQ netQ) =
      (sidecarCore config addr chainQ netQ).2.1.map Effect.log ++
        [Effect.writeTmp d, Effect.renameTmpToStats] ∧
    (∀ (total : Nat) (fs0 : SidecarFS),
      runSteps fs0 (PubStep.create d total :: List.replicate total PubStep.writeChunk) =
        ⟨FileC.doc d total total, fs0.stats_yaml⟩) ∧
    (∀ (total : Nat) (fs0 : SidecarFS) (l : List PubStep), l <+: pubTrace d total →
      (runSteps fs0 l).stats_yaml = fs0.stats_yaml ∨
      (runSteps fs0 l).stats_yaml = FileC.doc d total total) ∧
    (∀ (total : Nat) (fs0 : SidecarFS),
      runSteps fs0 (pubTrace d total) = ⟨FileC.absent, FileC.doc d total total⟩) := by
  refine ⟨published_version config addr chainQ netQ d hpub, ?_,
    fun total fs0 => pubTrace_write_phase d total fs0,
    fun total fs0 l hl => pubTrace_prefix_stats d total fs0 l hl,
    fun total fs0 => pubTrace_run d total fs0⟩
  simp [sidecarEffects, hpub]

/-- Witness for C1 at a cycle whose two queries fail with exit code 1: the
cycle still publishes, and the published document is the version-2 empty
document. -/
theorem atomic_publication_witness :
    (Stats.mk 2 []).version = 2 ∧
    sidecarEffects (sidecarCore [] "a" (.out ⟨.exited 1, .error "bad", none⟩)
        (.out ⟨.exited 1, .error "bad", none⟩)) =
      (sidecarCore [] "a" (.out ⟨.exited 1, .error "bad", none⟩)
        (.out ⟨.exited 1, .error "bad", none⟩)).2.1.map Effect.log ++
        [Effect.writeTmp ⟨2, []⟩, Effect.renameTmpToStats] ∧
    (∀ (total : Nat) (fs0 : SidecarFS),
      runSteps fs0 (PubStep.create ⟨2, []⟩ total :: List.replicate total PubStep.writeChunk) =
        ⟨FileC.doc ⟨2, []⟩ total total, fs0.stats_yaml⟩) ∧
    (∀ (total : Nat) (fs0 : SidecarFS) (l : List PubStep), l <+: pubTrace ⟨2, []⟩ total →
      (runSteps fs0 l).stats_yaml = fs0.stats_yaml ∨
      (runSteps fs0 l).stats_yaml = FileC.doc ⟨2, []⟩ total total) ∧
    (∀ (total : Nat) (fs0 : SidecarFS),
      runSteps fs0 (pubTrace ⟨2, []⟩ total) = ⟨FileC.absent, FileC.doc ⟨2, []⟩ total total⟩) :=
  atomic_publication [] "a" (.out ⟨.exited 1, .error "bad", none⟩)
    (.out ⟨.exited 1, .error "bad", none⟩) ⟨2, []⟩ rfl

end BitcoindManager
